import Mathlib

/-!
Shallow embedding of `src/tweet_race.py` (racing-api-twitter-post).

The program fetches a day's race results, formats a tweet for each result
not already in a persisted set of posted race ids, posts it, classifies
publish failures by message content, enforces a per-run cap of 5 successful
posts, and writes the updated id set back once at the end of the run.

External effects are modelled as parameters:
  * the HTTP fetch result is an `Option (List Race)` (`none` = the request
    raised, i.e. `response.raise_for_status()` threw before the loop);
  * the Twitter client is a function `post : String → PublishResult` giving
    the outcome of `post_tweet` on a given tweet text (`error msg` models a
    raised exception `e` with `str(e) = msg`);
  * the persisted file is the `posted : Finset String` passed in (the value
    `load_posted_ids()` returns) and the `persisted` field of the result
    (`none` = the process died before reaching `save_posted_ids`).
-/

namespace TweetRace

/-- One entry of a race's `runners` list.  `position` is kept in its textual
form; the source applies Python `int()` to it (which can raise).  `sp` and
`sp_dec` model `r.get("sp")` / `r.get("sp_dec")` (`none` = key absent). -/
structure Runner where
  position : String
  horse : String
  sp : Option String
  sp_dec : Option String
deriving DecidableEq

/-- One race result object as consumed by `format_tweet` and `main`. -/
structure Race where
  race_id : String
  course : String
  off : String
  region : String
  runners : List Runner
deriving DecidableEq

/-- The `COURSE_HANDLES` table: racecourse name to Twitter handle. -/
def COURSE_HANDLES : List (String × String) := [
  ("Aintree", "@AintreeRaces"),
  ("Ascot", "@Ascot"),
  ("Bangor-on-Dee", "@BangorRaces"),
  ("Bath", "@BathRacecourse"),
  ("Beverley", "@Beverley_Races"),
  ("Brighton", "@BrightonRace"),
  ("Carlisle", "@CarlisleRaces"),
  ("Cartmel", "@CartmelRace"),
  ("Catterick", "@CatterickRaces"),
  ("Chelmsford City", "@ChelmsfordCRC"),
  ("Cheltenham", "@CheltenhamRaces"),
  ("Chepstow", "@Chepstow_Racing"),
  ("Chester", "@ChesterRaces"),
  ("Doncaster", "@DoncasterRaces"),
  ("Epsom Downs", "@EpsomRacecourse"),
  ("Exeter", "@ExeterRaces"),
  ("Fakenham", "@FakenhamRC"),
  ("Fontwell Park", "@FontwellPark"),
  ("Goodwood", "@Goodwood_Races"),
  ("Great Yarmouth", "@YarmouthRaces"),
  ("Hamilton Park", "@HamiltonParkRC"),
  ("Haydock Park", "@HaydockRaces"),
  ("Hereford", "@HerefordRaces"),
  ("Hexham", "@HexhamRaces"),
  ("Huntingdon", "@Huntingdon_Race"),
  ("Kelso", "@KelsoRacecourse"),
  ("Kempton Park", "@kemptonparkrace"),
  ("Leicester", "@LeicesterRaces"),
  ("Lingfield Park", "@LingfieldPark"),
  ("Ludlow", "@LudlowRaceClub"),
  ("Market Rasen", "@MarketRasenRace"),
  ("Musselburgh", "@MusselburghRace"),
  ("Newbury", "@NewburyRacing"),
  ("Newcastle", "@NewcastleRaces"),
  ("Newmarket", "@NewmarketRace"),
  ("Newton Abbot", "@NewtonAbbotRace"),
  ("Nottingham", "@NottsRacecourse"),
  ("Perth", "@PerthRacecourse"),
  ("Plumpton", "@plumptonraces"),
  ("Pontefract", "@ponteraces"),
  ("Redcar", "@Redcarracing"),
  ("Ripon", "@RiponRaces"),
  ("Salisbury", "@salisburyraces"),
  ("Sandown Park", "@Sandownpark"),
  ("Sedgefield", "@SedgefieldRace"),
  ("Southwell", "@Southwell_Races"),
  ("Stratford-on-Avon", "@stratfordraces"),
  ("Taunton", "@TauntonRacing"),
  ("Thirsk", "@ThirskRaces"),
  ("Uttoxeter", "@UttoxeterRaces"),
  ("Warwick", "@WarwickRaces"),
  ("Wetherby", "@WetherbyRaces"),
  ("Wincanton", "@wincantonraces"),
  ("Windsor", "@WindsorRaces"),
  ("Wolverhampton", "@WolvesRaces"),
  ("Worcester", "@WorcesterRaces"),
  ("York", "@yorkracecourse")]

/-- `get_results_by_date`, after the HTTP layer: `response = none` models a
request error (`response.raise_for_status()` raised, so the whole call — and
the run — aborts); otherwise the result list is filtered by region.  The
date parameter only selects which response comes back and is dropped here. -/
def get_results_by_date (response : Option (List Race)) (region : String) :
    Option (List Race) :=
  match response with
  | none => none
  | some data => some (data.filter (fun r => r.region == region))

/-- Strip leading and trailing whitespace from a character list. -/
def trimChars (l : List Char) : List Char :=
  ((l.dropWhile (fun c => c.isWhitespace)).reverse.dropWhile
    (fun c => c.isWhitespace)).reverse

/-- Value of a list of decimal digit characters. -/
def digitsVal (l : List Char) : Nat :=
  l.foldl (fun a c => a * 10 + (c.toNat - 48)) 0

/-- A non-empty all-digit character list parses to its value. -/
def parseNatChars (l : List Char) : Option Nat :=
  if l.isEmpty then none
  else if l.all (fun c => c.isDigit) then some (digitsVal l) else none

/-- Optional sign followed by decimal digits. -/
def parseIntChars : List Char → Option Int
  | '-' :: t => (parseNatChars t).map (fun n => -(n : Int))
  | '+' :: t => (parseNatChars t).map (fun n => (n : Int))
  | l => (parseNatChars l).map (fun n => (n : Int))

/-- Python `int(s)` on a string: surrounding whitespace stripped, optional
sign, decimal digits; `none` when `int()` would raise `ValueError`.
(Digit-grouping underscores and non-ASCII digits are not modelled.) -/
def parsePos (s : String) : Option Int :=
  parseIntChars (trimChars s.data)

/-- One attempt of the regex `\s*\([^)]*\)` at the head of the character
list: maximal whitespace run, then `(`, then everything up to the next `)`.
Returns the remainder after the match, or `none` if there is no match
starting here. -/
def parenMatch (l : List Char) : Option (List Char) :=
  match l.dropWhile (fun c => c.isWhitespace) with
  | '(' :: t =>
    match t.dropWhile (fun c => c != ')') with
    | ')' :: r => some r
    | _ => none
  | _ => none

/-- Left-to-right scan deleting every match of `\s*\([^)]*\)` (as in
`re.sub`).  The fuel argument is the length of the list; every step consumes
at least one character, so this is enough. -/
def dropParenAux : Nat → List Char → List Char
  | 0, l => l
  | _ + 1, [] => []
  | fuel + 1, c :: cs =>
    match parenMatch (c :: cs) with
    | some rest => dropParenAux fuel rest
    | none => c :: dropParenAux fuel cs

/-- `re.sub(r"\s*\([^)]*\)", "", name).strip()` from line 160. -/
def cleanHorse (s : String) : String :=
  String.mk (trimChars (dropParenAux s.data.length s.data))

/-- Python `a or b` where `a` is an optional string and `b` a string:
`a` is returned when present and truthy (non-empty), else `b`. -/
def pyOrStr (a : Option String) (b : String) : String :=
  match a with
  | some s => if s.isEmpty then b else s
  | none => b

/-- Line 162: `sp = r.get("sp") or r.get("sp_dec") or ""`. -/
def sp_value (r : Runner) : String :=
  pyOrStr r.sp (pyOrStr r.sp_dec "")

/-- Sort key of line 155: `int(x["position"])`.  Only meaningful when the
position parses; `format_tweet` guards every use by `parsePos … |>.isSome`. -/
def posKey (r : Runner) : Int :=
  (parsePos r.position).getD 0

/-- Boolean comparison used to model Python's stable ascending sort by key. -/
def runnerLE (a b : Runner) : Bool :=
  decide (posKey a ≤ posKey b)

/-- `sorted(race["runners"], key=lambda x: int(x["position"]))`: Python
`sorted` is a stable ascending sort, modelled by `List.mergeSort`. -/
def sortRunners (rs : List Runner) : List Runner :=
  rs.mergeSort runnerLE

/-- `sorted(...)[:3]`: the top three finishers. -/
def top3 (rs : List Runner) : List Runner :=
  (sortRunners rs).take 3

/-- The fixed promotional footer line. -/
def FOOTER : String :=
  "Sign up for early access to the UK\x27s best #horseracing tipping platform > https://punting.io"

/-- Lines 149–152: off time plus course handle (course name if no handle). -/
def headerLine (race : Race) : String :=
  race.off ++ " at " ++ ((COURSE_HANDLES.lookup race.course).getD race.course)

/-- Line 163: `f"{r['position']}. {horse} {sp}"` (raw textual position). -/
def runnerLine (r : Runner) : String :=
  r.position ++ ". " ++ cleanHorse r.horse ++ " " ++ sp_value r

/-- The full tweet text for a given selection of runners. -/
def renderWith (race : Race) (rs : List Runner) : String :=
  String.intercalate "\n" ([headerLine race, ""] ++ rs.map runnerLine ++ ["", FOOTER])

/-- `format_tweet` (lines 139–169).  `none` models the uncaught
`ValueError` that `int(x["position"])` raises inside `sorted` when some
runner's position does not parse. -/
def format_tweet (race : Race) : Option String :=
  if race.runners.all (fun r => (parsePos r.position).isSome) then
    some (renderWith race (top3 race.runners))
  else none

/-- Outcome of one `post_tweet` call: a created tweet (with its id from
`resp.data["id"]`), or a raised exception whose `str(e)` is `msg`. -/
inductive PublishResult where
  | success (tweet_id : String)
  | error (msg : String)
deriving DecidableEq

/-- Whether the publish attempt succeeded. -/
def PublishResult.isSuccess : PublishResult → Bool
  | .success _ => true
  | .error _ => false

/-- Does the second list start with the first? -/
def startsWithChars : List Char → List Char → Bool
  | [], _ => true
  | _ :: _, [] => false
  | p :: ps, c :: cs => p == c && startsWithChars ps cs

/-- Does the pattern occur contiguously anywhere in the list? -/
def containsChars (pat : List Char) : List Char → Bool
  | [] => startsWithChars pat []
  | c :: cs => startsWithChars pat (c :: cs) || containsChars pat cs

/-- Python `pat in s` on strings: contiguous substring test. -/
def strContains (s pat : String) : Bool :=
  containsChars pat.data s.data

/-- Python `s.lower()` (ASCII case folding). -/
def strLower (s : String) : String :=
  String.mk (s.data.map Char.toLower)

/-- Line 238: `"duplicate content" in err_msg.lower()`. -/
def isDuplicateMsg (msg : String) : Bool :=
  strContains (strLower msg) "duplicate content"

/-- Line 242: `"too many requests" in err_msg.lower() or "429" in err_msg`. -/
def isRateLimitMsg (msg : String) : Bool :=
  strContains (strLower msg) "too many requests" || strContains msg "429"

/-- Line 208: `max_per_run = 5`. -/
def max_per_run : Nat := 5

/-- State of `main` when the `for race in races` loop finishes or the
process dies inside it: the in-memory `new_posted` set, the final
`sent_count`, the race ids for which `post_tweet` was actually invoked (in
order), and whether an uncaught exception escaped the loop (`aborted = true`
means `save_posted_ids` on line 249 is never reached). -/
structure LoopResult where
  new_posted : Finset String
  sent_count : Nat
  attempts : List String
  aborted : Bool
deriving DecidableEq

/-- The `for race in races` loop of `main` (lines 214–246), from a state
with in-memory set `np` and counter `s`.  `posted` is the set loaded at run
start (line 205), used only by the `if rid in posted: continue` guard.
Branches, in source order: skip already-posted; `format_tweet` outside the
`try` (an uncaught formatter error aborts); success with cap check;
duplicate-content; rate-limit; other error. -/
def runLoop (post : String → PublishResult) (posted : Finset String) :
    List Race → Finset String → Nat → LoopResult
  | [], np, s => ⟨np, s, [], false⟩
  | race :: rest, np, s =>
    if race.race_id ∈ posted then
      runLoop post posted rest np s
    else
      match format_tweet race with
      | none => ⟨np, s, [], true⟩
      | some text =>
        match post text with
        | .success _ =>
          if max_per_run ≤ s + 1 then
            ⟨insert race.race_id np, s + 1, [race.race_id], false⟩
          else
            let r := runLoop post posted rest (insert race.race_id np) (s + 1)
            ⟨r.new_posted, r.sent_count, race.race_id :: r.attempts, r.aborted⟩
        | .error msg =>
          if isDuplicateMsg msg then
            let r := runLoop post posted rest (insert race.race_id np) s
            ⟨r.new_posted, r.sent_count, race.race_id :: r.attempts, r.aborted⟩
          else if isRateLimitMsg msg then
            ⟨np, s, [race.race_id], false⟩
          else
            let r := runLoop post posted rest np s
            ⟨r.new_posted, r.sent_count, race.race_id :: r.attempts, r.aborted⟩

/-- Observable outcome of one whole invocation of `main`: which race ids
were passed to `post_tweet`, what `save_posted_ids` wrote (`none` = it was
never called because the run aborted first), and the final counter. -/
structure RunOutcome where
  attempts : List String
  persisted : Option (Finset String)
  sent_count : Nat
deriving DecidableEq

/-- `main` (lines 192–249): load `posted`, fetch (`none` response = the
fetch raised, killing the run before the loop), run the loop, and persist
`new_posted` once afterwards — unless an uncaught exception escaped. -/
def main (response : Option (List Race)) (post : String → PublishResult)
    (posted : Finset String) (region : String) : RunOutcome :=
  match get_results_by_date response region with
  | none => ⟨[], none, 0⟩
  | some races =>
    let r := runLoop post posted races posted 0
    ⟨r.attempts, if r.aborted then none else some r.new_posted, r.sent_count⟩

/-- The spec's selection rule for the rendered starting price, stated in
its own words: the first non-empty of {primary SP field, secondary SP
field}, defaulting to the empty string. -/
def firstNonEmptySP (r : Runner) : String :=
  (([r.sp, r.sp_dec].filterMap id).filter (fun s => !s.isEmpty)).headD ""

/-! ### Concrete fixtures for witnesses and counterexamples -/

/-- A runnerless race with the given id; it always formats successfully. -/
def plainRace (i : String) : Race :=
  ⟨i, "Ascot", "13:00", "GB", []⟩

/-- Seven distinct candidates, none posted yet. -/
def races7 : List Race :=
  [plainRace "id1", plainRace "id2", plainRace "id3", plainRace "id4",
   plainRace "id5", plainRace "id6", plainRace "id7"]

/-- A race whose only runner has a non-numeric position. -/
def badPosRace : Race :=
  ⟨"badpos", "Ascot", "14:00", "GB", [⟨"first", "Late Horse (IRE)", none, none⟩]⟩

/-- A publisher that always succeeds. -/
def postSuccess : String → PublishResult :=
  fun _ => .success "900001"

/-- A publisher that always raises with the given message. -/
def postError (msg : String) : String → PublishResult :=
  fun _ => .error msg

/-- A duplicate-content error message. -/
def dupMsg : String :=
  "403 Forbidden: You are not allowed to create a Tweet with duplicate content."

/-- A rate-limit error message. -/
def rateMsg : String :=
  "429 Too Many Requests"

/-- A message carrying both the duplicate-content and rate-limit markers. -/
def bothMsg : String :=
  "Duplicate Content rejected after 429 Too Many Requests"

/-- A four-runner race listed in scrambled finishing order. -/
def scrambledRace : Race :=
  ⟨"c7race", "York", "15:30", "GB",
   [⟨"3", "Gamma", none, none⟩,
    ⟨"1", "Alpha (IRE)", some "5/1", none⟩,
    ⟨"2", "Beta", some "", some "3.5"⟩,
    ⟨"4", "Delta", none, none⟩]⟩

/-! ### Step lemmas for the candidate loop -/

theorem runLoop_nil (post : String → PublishResult) (posted np : Finset String)
    (s : Nat) : runLoop post posted [] np s = ⟨np, s, [], false⟩ := by
  simp [runLoop]

theorem runLoop_skip (post : String → PublishResult) (posted np : Finset String)
    (race : Race) (rest : List Race) (s : Nat) (h : race.race_id ∈ posted) :
    runLoop post posted (race :: rest) np s = runLoop post posted rest np s := by
  simp [runLoop, h]

theorem runLoop_malformed (post : String → PublishResult)
    (posted np : Finset String) (race : Race) (rest : List Race) (s : Nat)
    (h1 : race.race_id ∉ posted) (h2 : format_tweet race = none) :
    runLoop post posted (race :: rest) np s = ⟨np, s, [], true⟩ := by
  simp [runLoop, h1, h2]

theorem runLoop_success (post : String → PublishResult)
    (posted np : Finset String) (race : Race) (rest : List Race) (s : Nat)
    (text tid : String)
    (h1 : race.race_id ∉ posted) (h2 : format_tweet race = some text)
    (h3 : post text = .success tid) :
    runLoop post posted (race :: rest) np s =
      if max_per_run ≤ s + 1 then
        ⟨insert race.race_id np, s + 1, [race.race_id], false⟩
      else
        let r := runLoop post posted rest (insert race.race_id np) (s + 1)
        ⟨r.new_posted, r.sent_count, race.race_id :: r.attempts, r.aborted⟩ := by
  simp [runLoop, h1, h2, h3]

theorem runLoop_dup (post : String → PublishResult)
    (posted np : Finset String) (race : Race) (rest : List Race) (s : Nat)
    (text msg : String)
    (h1 : race.race_id ∉ posted) (h2 : format_tweet race = some text)
    (h3 : post text = .error msg) (h4 : isDuplicateMsg msg = true) :
    runLoop post posted (race :: rest) np s =
      let r := runLoop post posted rest (insert race.race_id np) s
      ⟨r.new_posted, r.sent_count, race.race_id :: r.attempts, r.aborted⟩ := by
  simp [runLoop, h1, h2, h3, h4]

theorem runLoop_rate (post : String → PublishResult)
    (posted np : Finset String) (race : Race) (rest : List Race) (s : Nat)
    (text msg : String)
    (h1 : race.race_id ∉ posted) (h2 : format_tweet race = some text)
    (h3 : post text = .error msg) (h4 : isDuplicateMsg msg = false)
    (h5 : isRateLimitMsg msg = true) :
    runLoop post posted (race :: rest) np s = ⟨np, s, [race.race_id], false⟩ := by
  simp [runLoop, h1, h2, h3, h4, h5]

theorem runLoop_other (post : String → PublishResult)
    (posted np : Finset String) (race : Race) (rest : List Race) (s : Nat)
    (text msg : String)
    (h1 : race.race_id ∉ posted) (h2 : format_tweet race = some text)
    (h3 : post text = .error msg) (h4 : isDuplicateMsg msg = false)
    (h5 : isRateLimitMsg msg = false) :
    runLoop post posted (race :: rest) np s =
      let r := runLoop post posted rest np s
      ⟨r.new_posted, r.sent_count, race.race_id :: r.attempts, r.aborted⟩ := by
  simp [runLoop, h1, h2, h3, h4, h5]

/-! ### Run-level invariant lemmas -/

/-- The in-memory posted set only ever grows during the loop. -/
theorem runLoop_mono (post : String → PublishResult) (posted : Finset String) :
    ∀ (races : List Race) (np : Finset String) (s : Nat),
    np ⊆ (runLoop post posted races np s).new_posted := by
  intro races
  induction races with
  | nil => intro np s; simp [runLoop]
  | cons race rest ih =>
    intro np s
    rw [runLoop]
    split
    · exact ih np s
    · split
      · simp
      · split
        · split
          · simp [Finset.subset_insert]
          · exact (Finset.subset_insert _ _).trans (ih _ _)
        · split
          · exact (Finset.subset_insert _ _).trans (ih _ _)
          · split
            · simp
            · exact ih _ _

/-- Every race id passed to `post_tweet` was outside the loaded set. -/
theorem runLoop_attempts_fresh (post : String → PublishResult)
    (posted : Finset String) :
    ∀ (races : List Race) (np : Finset String) (s : Nat),
    ∀ a ∈ (runLoop post posted races np s).attempts, a ∉ posted := by
  intro races
  induction races with
  | nil => intro np s; simp [runLoop]
  | cons race rest ih =>
    intro np s
    rw [runLoop]
    split
    · exact ih np s
    · rename_i hmem
      split
      · simp
      · split
        · split
          · simpa using hmem
          · intro a ha
            simp only [List.mem_cons] at ha
            rcases ha with rfl | ha
            · exact hmem
            · exact ih _ _ a ha
        · split
          · intro a ha
            simp only [List.mem_cons] at ha
            rcases ha with rfl | ha
            · exact hmem
            · exact ih _ _ a ha
          · split
            · simpa using hmem
            · intro a ha
              simp only [List.mem_cons] at ha
              rcases ha with rfl | ha
              · exact hmem
              · exact ih _ _ a ha

/-- If every candidate outside the loaded set formats successfully, no
uncaught exception escapes the loop. -/
theorem runLoop_no_abort (post : String → PublishResult)
    (posted : Finset String) :
    ∀ (races : List Race) (np : Finset String) (s : Nat),
    (∀ r ∈ races, r.race_id ∉ posted → (format_tweet r).isSome = true) →
    (runLoop post posted races np s).aborted = false := by
  intro races
  induction races with
  | nil => intro np s _; simp [runLoop]
  | cons race rest ih =>
    intro np s hfmt
    rw [runLoop]
    split
    · exact ih np s (fun r hr => hfmt r (List.mem_cons_of_mem _ hr))
    · rename_i hmem
      split
      · rename_i hnone
        have := hfmt race (List.mem_cons_self _ _) hmem
        rw [hnone] at this
        simp at this
      · split
        · split
          · rfl
          · simpa using ih _ _ (fun r hr => hfmt r (List.mem_cons_of_mem _ hr))
        · split
          · simpa using ih _ _ (fun r hr => hfmt r (List.mem_cons_of_mem _ hr))
          · split
            · rfl
            · simpa using ih _ _ (fun r hr => hfmt r (List.mem_cons_of_mem _ hr))

/-- Closed form of the loop when every candidate is new, formats, and every
publish attempt succeeds: the first `max_per_run - s` candidates are posted
and counted, the rest are untouched. -/
theorem runLoop_all_success (post : String → PublishResult)
    (posted : Finset String) (hpost : ∀ t, (post t).isSuccess = true) :
    ∀ (races : List Race) (np : Finset String) (s : Nat),
    s < max_per_run →
    (∀ r ∈ races, r.race_id ∉ posted) →
    (∀ r ∈ races, (format_tweet r).isSome = true) →
    runLoop post posted races np s =
      ⟨np ∪ ((races.take (max_per_run - s)).map Race.race_id).toFinset,
       s + min (max_per_run - s) races.length,
       (races.take (max_per_run - s)).map Race.race_id,
       false⟩ := by
  intro races
  induction races with
  | nil =>
    intro np s _ _ _
    simp [runLoop]
  | cons race rest ih =>
    intro np s hs hnew hfmt
    have hmem : race.race_id ∉ posted := hnew race (List.mem_cons_self _ _)
    have hf : (format_tweet race).isSome = true := hfmt race (List.mem_cons_self _ _)
    obtain ⟨text, ht⟩ := Option.isSome_iff_exists.mp hf
    obtain ⟨tid, hp⟩ : ∃ tid, post text = .success tid := by
      have hres := hpost text
      cases hpt : post text with
      | success tid => exact ⟨tid, rfl⟩
      | error msg => rw [hpt] at hres; simp [PublishResult.isSuccess] at hres
    rw [runLoop_success post posted np race rest s text tid hmem ht hp]
    by_cases hcap : max_per_run ≤ s + 1
    · rw [if_pos hcap]
      have h1 : max_per_run - s = 1 := by simp only [max_per_run] at *; omega
      rw [h1]
      simp only [List.take_succ_cons, List.take_zero, List.map_cons, List.map_nil,
        List.toFinset_cons, List.toFinset_nil, LoopResult.mk.injEq]
      refine ⟨?_, ?_, trivial, trivial⟩
      · ext a
        simp [or_comm]
      · simp only [List.length_cons, max_per_run] at *
        omega
    · rw [if_neg hcap]
      have hrec := ih (insert race.race_id np) (s + 1)
        (by simp only [max_per_run] at *; omega)
        (fun r hr => hnew r (List.mem_cons_of_mem _ hr))
        (fun r hr => hfmt r (List.mem_cons_of_mem _ hr))
      rw [hrec]
      have hstep : max_per_run - s = (max_per_run - (s + 1)) + 1 := by
        simp only [max_per_run] at *; omega
      rw [hstep]
      simp only [List.take_succ_cons, List.map_cons, List.toFinset_cons,
        LoopResult.mk.injEq]
      refine ⟨?_, ?_, trivial, trivial⟩
      · rw [Finset.insert_union, Finset.union_insert]
      · simp only [List.length_cons]
        omega

/-! ### Claim theorems -/

/-- C9: when the fetch step fails (the HTTP request raised before the loop),
the run aborts before any candidate is processed: `post_tweet` is never
invoked (no attempts), the in-memory set is untouched, and
`save_posted_ids` is never called (nothing persisted). -/
theorem C9_fetch_failure_aborts (post : String → PublishResult)
    (posted : Finset String) (region : String) :
    main none post posted region = ⟨[], none, 0⟩ := rfl

/-- C6: in every run, no identifier already in the loaded posted set is
ever passed to the publish step, and whatever set is written back at run
end contains the loaded set (ids are only added, never removed). -/
theorem C6_idempotence_monotonicity (response : Option (List Race))
    (post : String → PublishResult) (posted : Finset String)
    (region : String) :
    (∀ a ∈ (main response post posted region).attempts, a ∉ posted) ∧
    (∀ S, (main response post posted region).persisted = some S →
      posted ⊆ S) := by
  cases response with
  | none => simp [main, get_results_by_date]
  | some data =>
    simp only [main, get_results_by_date]
    constructor
    · exact runLoop_attempts_fresh post posted _ posted 0
    · intro S hS
      by_cases hab :
        (runLoop post posted (data.filter (fun r => r.region == region))
          posted 0).aborted
      · simp [hab] at hS
      · simp only [hab, Bool.false_eq_true, if_false, Option.some.injEq] at hS
        exact hS ▸ runLoop_mono post posted _ posted 0

/-- C3 as frozen is refuted by this run: the fetch succeeds and returns one
candidate, but its runner's position `"first"` is not numeric, so the
`int()` call inside `format_tweet` (invoked on line 220, outside the `try`)
raises an uncaught `ValueError` and `save_posted_ids` on line 249 is never
reached — nothing is persisted for this run. -/
theorem C3_counterexample :
    (main (some [badPosRace]) postSuccess ∅ "GB").persisted = none := by
  decide

/-- C3 (amended): for every run in which the fetch step succeeds and every
fetched candidate outside the loaded set has well-formed runner data, the
updated posted-id set is persisted exactly once, after the candidate loop
ends, whatever the individual publish outcomes are. -/
theorem C3_persist_once (data : List Race) (post : String → PublishResult)
    (posted : Finset String) (region : String)
    (hfmt : ∀ r ∈ data.filter (fun r => r.region == region),
      r.race_id ∉ posted → (format_tweet r).isSome = true) :
    (main (some data) post posted region).persisted =
      some (runLoop post posted (data.filter (fun r => r.region == region))
        posted 0).new_posted := by
  simp only [main, get_results_by_date]
  rw [runLoop_no_abort post posted _ posted 0 hfmt]
  simp

/-- C3 witness: a concrete two-candidate run (one success, one duplicate)
persists exactly once. -/
theorem C3_witness :
    (main (some [plainRace "w1", plainRace "w2"]) postSuccess ∅ "GB").persisted =
      some (runLoop postSuccess ∅
        ([plainRace "w1", plainRace "w2"].filter (fun r => r.region == "GB"))
        ∅ 0).new_posted :=
  C3_persist_once [plainRace "w1", plainRace "w2"] postSuccess ∅ "GB"
    (by decide)

/-- C2 as frozen is refuted by this run: the first candidate's runner data
is malformed, yet the failure is NOT handled like an Other publish failure
within the per-candidate attempt — `format_tweet` is called on line 220
before the `try` of line 221, so the exception aborts the process: the
second candidate is never attempted and nothing is persisted, where the
claim requires the run to continue and persist at the end. -/
theorem C2_counterexample :
    main (some [badPosRace, plainRace "after"]) postSuccess ∅ "GB" =
      ⟨[], none, 0⟩ := by
  decide

/-- C2 (amended): for every candidate whose runner data is malformed
(position not parseable as an integer), reached with in-memory state
`(np, s)`, the formatter-level failure propagates uncaught out of the
per-candidate attempt: the candidate is not marked posted, `post_tweet` is
invoked neither for it nor for any later candidate, and the loop aborts;
consequently a run whose (filtered) candidate list begins with such a
candidate persists nothing at all. -/
theorem C2_malformed_uncaught (post : String → PublishResult)
    (posted np : Finset String) (race : Race) (rest : List Race) (s : Nat)
    (h1 : race.race_id ∉ posted) (h2 : format_tweet race = none) :
    runLoop post posted (race :: rest) np s = ⟨np, s, [], true⟩ ∧
    (∀ response region,
      get_results_by_date response region = some (race :: rest) →
      main response post posted region = ⟨[], none, 0⟩) := by
  have h := runLoop_malformed post posted np race rest s h1 h2
  refine ⟨h, ?_⟩
  intro response region hfetch
  have h0 := runLoop_malformed post posted posted race rest 0 h1 h2
  cases response with
  | none => simp [get_results_by_date] at hfetch
  | some data =>
    simp only [get_results_by_date, Option.some.injEq] at hfetch
    simp [main, get_results_by_date, hfetch, h0]

/-- C2 witness: the amended behaviour at a concrete malformed candidate. -/
theorem C2_witness :
    runLoop postSuccess ∅ [badPosRace, plainRace "after"] ∅ 0 =
      ⟨∅, 0, [], true⟩ ∧
    (∀ response region,
      get_results_by_date response region =
        some [badPosRace, plainRace "after"] →
      main response postSuccess ∅ region = ⟨[], none, 0⟩) :=
  C2_malformed_uncaught postSuccess ∅ ∅ badPosRace [plainRace "after"] 0
    (by decide) (by decide)

/-- C4: a candidate whose publish attempt is classified as rate-limited
(no duplicate marker, a rate-limit marker) is not marked posted and aborts
the rest of the run: from the loop state `(np, s)` at which the candidate
is reached, the loop stops at once with the in-memory set unchanged, the
candidate is the only id attempted from here on, and it and every later
candidate stay out of the final set unless already in `np`. -/
theorem C4_rate_limit_abort (post : String → PublishResult)
    (posted np : Finset String) (race : Race) (rest : List Race) (s : Nat)
    (text msg : String)
    (h1 : race.race_id ∉ posted) (h2 : format_tweet race = some text)
    (h3 : post text = .error msg) (h4 : isDuplicateMsg msg = false)
    (h5 : isRateLimitMsg msg = true) :
    runLoop post posted (race :: rest) np s = ⟨np, s, [race.race_id], false⟩ ∧
    (race.race_id ∉ np →
      race.race_id ∉ (runLoop post posted (race :: rest) np s).new_posted) ∧
    (∀ r ∈ rest, r.race_id ∉ np →
      r.race_id ∉ (runLoop post posted (race :: rest) np s).new_posted) ∧
    (runLoop post posted (race :: rest) np s).attempts = [race.race_id] := by
  have h := runLoop_rate post posted np race rest s text msg h1 h2 h3 h4 h5
  refine ⟨h, ?_, ?_, ?_⟩ <;> simp [h]

/-- C4 witness: a concrete rate-limited first candidate stops the run. -/
theorem C4_witness :
    runLoop (postError rateMsg) ∅ [plainRace "ra", plainRace "rb"] ∅ 0 =
      ⟨∅, 0, [(plainRace "ra").race_id], false⟩ :=
  (C4_rate_limit_abort (postError rateMsg) ∅ ∅ (plainRace "ra")
    [plainRace "rb"] 0
    (renderWith (plainRace "ra") (top3 (plainRace "ra").runners)) rateMsg
    (by decide) rfl rfl (by decide) (by decide)).1

/-- C5: a candidate whose publish attempt is classified as a
duplicate-content failure is marked posted, but the success counter is not
incremented: the loop continues over the rest of the candidates from the
same counter value `s`, so the duplicate consumes no cap budget. -/
theorem C5_duplicate_marked_not_counted (post : String → PublishResult)
    (posted np : Finset String) (race : Race) (rest : List Race) (s : Nat)
    (text msg : String)
    (h1 : race.race_id ∉ posted) (h2 : format_tweet race = some text)
    (h3 : post text = .error msg) (h4 : isDuplicateMsg msg = true) :
    race.race_id ∈ (runLoop post posted (race :: rest) np s).new_posted ∧
    (runLoop post posted (race :: rest) np s).sent_count =
      (runLoop post posted rest (insert race.race_id np) s).sent_count ∧
    (runLoop post posted (race :: rest) np s).attempts =
      race.race_id ::
        (runLoop post posted rest (insert race.race_id np) s).attempts ∧
    (runLoop post posted (race :: rest) np s).aborted =
      (runLoop post posted rest (insert race.race_id np) s).aborted := by
  have h := runLoop_dup post posted np race rest s text msg h1 h2 h3 h4
  refine ⟨?_, ?_, ?_, ?_⟩ <;> simp [h]
  exact runLoop_mono post posted rest _ s (Finset.mem_insert_self _ _)

/-- C5 witness: a concrete duplicate-classified candidate is in the
in-memory posted set afterwards. -/
theorem C5_witness :
    (plainRace "rd").race_id ∈
      (runLoop (postError dupMsg) ∅ [plainRace "rd", plainRace "re"] ∅ 0).new_posted :=
  (C5_duplicate_marked_not_counted (postError dupMsg) ∅ ∅ (plainRace "rd")
    [plainRace "re"] 0
    (renderWith (plainRace "rd") (top3 (plainRace "rd").runners)) dupMsg
    (by decide) rfl rfl (by decide)).1

/-- C10: classification precedence — a publish failure whose message
carries both the duplicate-content marker and a rate-limit marker is
handled by the duplicate branch (line 238 is tested before line 242): the
candidate is marked posted and the loop continues over the remaining
candidates instead of aborting as a rate limit would. -/
theorem C10_duplicate_beats_rate_limit (post : String → PublishResult)
    (posted np : Finset String) (race : Race) (rest : List Race) (s : Nat)
    (text msg : String)
    (h1 : race.race_id ∉ posted) (h2 : format_tweet race = some text)
    (h3 : post text = .error msg) (h4 : isDuplicateMsg msg = true)
    (h5 : isRateLimitMsg msg = true) :
    runLoop post posted (race :: rest) np s =
      (let r := runLoop post posted rest (insert race.race_id np) s
       ⟨r.new_posted, r.sent_count, race.race_id :: r.attempts, r.aborted⟩) ∧
    race.race_id ∈ (runLoop post posted (race :: rest) np s).new_posted := by
  have h := runLoop_dup post posted np race rest s text msg h1 h2 h3 h4
  refine ⟨h, ?_⟩
  simp only [h]
  exact runLoop_mono post posted rest _ s (Finset.mem_insert_self _ _)

/-- C10 witness: a message with both markers at a concrete candidate: the
run continues to the next candidate (which gets attempted) instead of
stopping. -/
theorem C10_witness :
    runLoop (postError bothMsg) ∅ [plainRace "rf", plainRace "rg"] ∅ 0 =
      (let r := runLoop (postError bothMsg) ∅ [plainRace "rg"]
        (insert (plainRace "rf").race_id ∅) 0
       ⟨r.new_posted, r.sent_count, (plainRace "rf").race_id :: r.attempts,
        r.aborted⟩) :=
  (C10_duplicate_beats_rate_limit (postError bothMsg) ∅ ∅ (plainRace "rf")
    [plainRace "rg"] 0
    (renderWith (plainRace "rf") (top3 (plainRace "rf").runners)) bothMsg
    (by decide) rfl rfl (by decide) (by decide)).1

/-- C1: a run whose fetched list holds 7 candidates, none already posted,
all well-formed, with every publish attempt succeeding, posts and counts
exactly the first 5: the persisted set (written once) is the prior set plus
those 5 ids, the success counter ends at the cap, the remaining 2
candidates are never attempted, and their ids are absent from the
persisted set. -/
theorem C1_cap_enforcement (response : Option (List Race))
    (post : String → PublishResult) (posted : Finset String) (region : String)
    (races : List Race)
    (hfetch : get_results_by_date response region = some races)
    (hlen : races.length = 7)
    (hnodup : (races.map Race.race_id).Nodup)
    (hnew : ∀ r ∈ races, r.race_id ∉ posted)
    (hfmt : ∀ r ∈ races, (format_tweet r).isSome = true)
    (hpost : ∀ t, (post t).isSuccess = true) :
    (main response post posted region).persisted =
      some (posted ∪ ((races.take 5).map Race.race_id).toFinset) ∧
    (main response post posted region).sent_count = 5 ∧
    (main response post posted region).attempts =
      (races.take 5).map Race.race_id ∧
    (∀ r ∈ races.drop 5,
      r.race_id ∉ (main response post posted region).attempts ∧
      r.race_id ∉ posted ∪ ((races.take 5).map Race.race_id).toFinset) := by
  have hr := runLoop_all_success post posted hpost races posted 0
    (by simp [max_per_run]) hnew hfmt
  simp only [max_per_run, Nat.sub_zero, Nat.zero_add, hlen] at hr
  norm_num at hr
  have hmain : main response post posted region =
      ⟨(races.take 5).map Race.race_id,
       some (posted ∪ ((races.take 5).map Race.race_id).toFinset), 5⟩ := by
    cases response with
    | none => simp [get_results_by_date] at hfetch
    | some data =>
      simp only [get_results_by_date, Option.some.injEq] at hfetch
      simp [main, get_results_by_date, hfetch, hr]
  have hdis : ∀ r ∈ races.drop 5,
      r.race_id ∉ (races.take 5).map Race.race_id := by
    intro r hrmem hmem
    have hsplit : races.map Race.race_id =
        (races.take 5).map Race.race_id ++ (races.drop 5).map Race.race_id := by
      rw [← List.map_append, List.take_append_drop]
    rw [hsplit] at hnodup
    exact (List.nodup_append.mp hnodup).2.2 hmem
      (List.mem_map_of_mem _ hrmem)
  refine ⟨by rw [hmain], by rw [hmain], by rw [hmain], ?_⟩
  intro r hrmem
  have h1 := hdis r hrmem
  have h2 : r.race_id ∉ posted := hnew r (List.drop_subset _ _ hrmem)
  refine ⟨by rw [hmain]; exact h1, ?_⟩
  intro hmem
  rcases Finset.mem_union.mp hmem with hp | ht
  · exact h2 hp
  · exact h1 (List.mem_toFinset.mp ht)

/-- C1 witness: the concrete seven-candidate all-success run. -/
theorem C1_witness :
    (main (some races7) postSuccess ∅ "GB").persisted =
      some (∅ ∪ ((races7.take 5).map Race.race_id).toFinset) ∧
    (main (some races7) postSuccess ∅ "GB").sent_count = 5 ∧
    (main (some races7) postSuccess ∅ "GB").attempts =
      (races7.take 5).map Race.race_id ∧
    (∀ r ∈ races7.drop 5,
      r.race_id ∉ (main (some races7) postSuccess ∅ "GB").attempts ∧
      r.race_id ∉ ∅ ∪ ((races7.take 5).map Race.race_id).toFinset) :=
  C1_cap_enforcement (some races7) postSuccess ∅ "GB" races7 (by decide)
    (by decide) (by decide) (by decide) (by decide) (fun _ => rfl)

/-- C8: the rendered starting price is the first non-empty of the primary
SP field then the secondary SP field, and the empty string when neither
yields a value; the selection is a total function of the two optional
fields (it cannot raise for any combination of present, empty or absent
fields), and it agrees everywhere with the spec's own selection rule. -/
theorem C8_sp_fallback (r : Runner) : sp_value r = firstNonEmptySP r := by
  rcases r with ⟨p, h, sp, spd⟩
  cases sp with
  | none =>
    cases spd with
    | none => rfl
    | some t =>
      by_cases ht : t.isEmpty <;>
        simp [sp_value, pyOrStr, firstNonEmptySP, ht]
  | some s =>
    cases spd with
    | none =>
      by_cases hs : s.isEmpty <;>
        simp [sp_value, pyOrStr, firstNonEmptySP, hs]
    | some t =>
      by_cases hs : s.isEmpty <;> by_cases ht : t.isEmpty <;>
        simp [sp_value, pyOrStr, firstNonEmptySP, hs, ht]

/-- C7: for a race whose runners all have integer-parseable positions and
number at least 3, the formatter emits exactly `top3` of the runners, and
`top3` consists of 3 runners, in ascending position order, which are
minimal: the rest of the runners (a permutation complement) all have
positions no smaller than every selected one; runners with equal positions
keep their relative input order (the selected sub-run of any fixed position
is an initial run of that position's occurrences in input order). -/
theorem C7_formatter_top3 (race : Race)
    (hall : ∀ r ∈ race.runners, (parsePos r.position).isSome = true)
    (hlen : 3 ≤ race.runners.length) :
    format_tweet race = some (renderWith race (top3 race.runners)) ∧
    (top3 race.runners).length = 3 ∧
    (top3 race.runners).Pairwise (fun a b => posKey a ≤ posKey b) ∧
    (∃ others, race.runners.Perm (top3 race.runners ++ others) ∧
      ∀ b ∈ others, ∀ a ∈ top3 race.runners, posKey a ≤ posKey b) ∧
    (∀ k : Int, ∃ t, race.runners.filter (fun r => posKey r == k) =
      (top3 race.runners).filter (fun r => posKey r == k) ++ t) := by
  have htrans : ∀ a b c : Runner, runnerLE a b → runnerLE b c → runnerLE a c := by
    intro a b c h1 h2
    simp only [runnerLE, decide_eq_true_eq] at *
    omega
  have htotal : ∀ a b : Runner, runnerLE a b || runnerLE b a := by
    intro a b
    simp only [runnerLE, Bool.or_eq_true, decide_eq_true_eq]
    omega
  have hsorted := List.sorted_mergeSort htrans htotal race.runners
  have hsorted' : (sortRunners race.runners).Pairwise
      (fun a b => posKey a ≤ posKey b) := by
    refine List.Pairwise.imp ?_ hsorted
    intro a b hab
    simpa [runnerLE, decide_eq_true_eq] using hab
  have hperm : (sortRunners race.runners).Perm race.runners :=
    List.mergeSort_perm race.runners runnerLE
  refine ⟨?_, ?_, ?_, ?_, ?_⟩
  · simp only [format_tweet]
    rw [if_pos (List.all_eq_true.mpr hall)]
  · simp only [top3, sortRunners, List.length_take, List.length_mergeSort]
    omega
  · exact List.Pairwise.sublist (List.take_sublist 3 _) hsorted'
  · refine ⟨(sortRunners race.runners).drop 3, ?_, ?_⟩
    · have hsplit : top3 race.runners ++ (sortRunners race.runners).drop 3 =
          sortRunners race.runners := List.take_append_drop 3 _
      rw [hsplit]
      exact hperm.symm
    · have h := hsorted'
      rw [← List.take_append_drop 3 (sortRunners race.runners)] at h
      have hcross := (List.pairwise_append.mp h).2.2
      intro b hb a ha
      exact hcross a ha b hb
  · intro k
    have hq : ∀ a ∈ race.runners.filter (fun r => posKey r == k),
        posKey a = k := by
      intro a ha
      simpa using (List.mem_filter.mp ha).2
    have hcpair : (race.runners.filter (fun r => posKey r == k)).Pairwise
        (fun a b => runnerLE a b) := by
      apply List.pairwise_of_forall_mem_list
      intro a ha b hb
      simp [runnerLE, hq a ha, hq b hb]
    have hstable := List.sublist_mergeSort htrans htotal hcpair
      (List.filter_sublist race.runners)
    have hfs : (race.runners.filter (fun r => posKey r == k)).filter
          (fun r => posKey r == k) =
        race.runners.filter (fun r => posKey r == k) :=
      List.filter_eq_self.mpr (fun a ha => (List.mem_filter.mp ha).2)
    have h1 : (race.runners.filter (fun r => posKey r == k)).Sublist
        ((sortRunners race.runners).filter (fun r => posKey r == k)) := by
      have h := List.Sublist.filter (fun r => posKey r == k) hstable
      rwa [hfs] at h
    have h2 : ((sortRunners race.runners).filter
          (fun r => posKey r == k)).Perm
        (race.runners.filter (fun r => posKey r == k)) :=
      List.Perm.filter _ hperm
    have heq : race.runners.filter (fun r => posKey r == k) =
        (sortRunners race.runners).filter (fun r => posKey r == k) :=
      h1.eq_of_length h2.length_eq.symm
    refine ⟨((sortRunners race.runners).drop 3).filter
      (fun r => posKey r == k), ?_⟩
    rw [heq]
    conv_lhs => rw [← List.take_append_drop 3 (sortRunners race.runners)]
    rw [List.filter_append]
    rfl

/-- C7 witness: the scrambled four-runner race. -/
theorem C7_witness :
    format_tweet scrambledRace =
      some (renderWith scrambledRace (top3 scrambledRace.runners)) ∧
    (top3 scrambledRace.runners).length = 3 ∧
    (top3 scrambledRace.runners).Pairwise (fun a b => posKey a ≤ posKey b) ∧
    (∃ others, scrambledRace.runners.Perm (top3 scrambledRace.runners ++ others) ∧
      ∀ b ∈ others, ∀ a ∈ top3 scrambledRace.runners, posKey a ≤ posKey b) ∧
    (∀ k : Int, ∃ t, scrambledRace.runners.filter (fun r => posKey r == k) =
      (top3 scrambledRace.runners).filter (fun r => posKey r == k) ++ t) :=
  C7_formatter_top3 scrambledRace (by decide) (by decide)

end TweetRace
